import Mathlib

/-!
# Verification of the STM32F746G-Discovery UART driver

A shallow embedding of `src/freertos/stm32f746g-discovery/uart_driver.cc`
(the Dartino FreeRTOS UART driver) together with proofs about the claims of
its design specification.

Modelling conventions:
- Bytes and bitmasks are `Nat` (masked with `% 256` where the source casts
  to `uint8_t`).
- Interactions with the HAL peripheral registers and with the
  device-registration subsystem that do not feed back into driver state are
  recorded as an emitted `Effect` list; interrupt-source enable bits, which
  the driver itself reads back (`__HAL_UART_GET_IT_SOURCE`), are part of the
  driver state.
- One `InterruptHandler` invocation receives the set of hardware-pending
  interrupt conditions (and the data-register byte) as an `HwInput`.
-/

set_option autoImplicit false

/-- Signal bit set from the interrupt handler: `kReceivedBit = 1 << 0`. -/
def kReceivedBit : Nat := 1 <<< 0

/-- Signal bit set from the interrupt handler: `kTransmittedBit = 1 << 1`. -/
def kTransmittedBit : Nat := 1 <<< 1

/-- Signal bit set from the interrupt handler: `kErrorBit = 1 << 3`. -/
def kErrorBit : Nat := 1 <<< 3

/-- `kRxBufferSize = 511`. -/
def kRxBufferSize : Nat := 511

/-- `kTxBufferSize = 511`. -/
def kTxBufferSize : Nat := 511

/-- Modelled from the spec: the staging block size constant `kTxBlockSize`
is declared in `uart_driver.h`, which is not part of the sources; the spec
only fixes that one "staging-block's worth" of bytes is pulled at a time.
The claims under proof do not depend on its numeric value. -/
def kTxBlockSize : Nat := 16

/-- STM32 HAL error code for a parity error (`HAL_UART_ERROR_PE`), an
external HAL constant; the claims only use that the codes are OR-ed in. -/
def HAL_UART_ERROR_PE : Nat := 1

/-- STM32 HAL error code for a noise error (`HAL_UART_ERROR_NE`). -/
def HAL_UART_ERROR_NE : Nat := 2

/-- STM32 HAL error code for a frame error (`HAL_UART_ERROR_FE`). -/
def HAL_UART_ERROR_FE : Nat := 4

/-- STM32 HAL error code for an overrun error (`HAL_UART_ERROR_ORE`). -/
def HAL_UART_ERROR_ORE : Nat := 8

/-- Modelled from the spec: the `CircularBuffer` class is declared and
implemented outside the given sources; §4.1 of the spec fixes its
behaviour, which we model as a bounded FIFO queue of bytes (front of the
list = read end): `Write` copies as many bytes as fit in the remaining
capacity, `Read` removes up to `maxCount` bytes from the front, `IsEmpty`
and `IsFull` are the evident predicates. -/
structure CircularBuffer where
  capacity : Nat
  data : List Nat
  deriving DecidableEq

namespace CircularBuffer

/-- Modelled from the spec: `Write(data, count) -> bytesWritten` copies as
many of the bytes as fit in remaining capacity and returns the number
actually copied (0 if full). -/
def write (b : CircularBuffer) (bytes : List Nat) : CircularBuffer × Nat :=
  let n := min bytes.length (b.capacity - b.data.length)
  ({ b with data := b.data ++ bytes.take n }, n)

/-- Modelled from the spec: `Read(outBuffer, maxCount) -> bytesRead` copies
up to `maxCount` available bytes out and advances the read cursor. -/
def read (b : CircularBuffer) (maxCount : Nat) : CircularBuffer × List Nat :=
  ({ b with data := b.data.drop maxCount }, b.data.take maxCount)

/-- Modelled from the spec: `IsEmpty()`. -/
def isEmpty (b : CircularBuffer) : Bool := b.data.isEmpty

/-- Modelled from the spec: `IsFull()`. -/
def isFull (b : CircularBuffer) : Bool := b.data.length == b.capacity

end CircularBuffer

/-- Externally visible actions of the driver: calls into the
device-registration subsystem (`DeviceManagerSetFlags` /
`DeviceManagerClearFlags`), HAL flag clears and data-register traffic, the
receive flush request, the `osSignalSet` wake of the consumer task, and the
`UNREACHABLE()` fatal stop. -/
inductive Effect where
  | dmSetFlags (deviceId flags : Nat)
  | dmClearFlags (deviceId flags : Nat)
  | clearPEFlag
  | clearFEFlag
  | clearNEFlag
  | clearOREFlag
  | rxFlushRequest
  | writeTDR (byte : Nat)
  | signalSet (flags : Nat)
  | fatal
  deriving DecidableEq

/-- The mutable state of `UartDriverImpl` after `Initialize`, plus the
hardware interrupt-source enable bits the driver manipulates
(`__HAL_UART_ENABLE_IT` / `__HAL_UART_DISABLE_IT`), which it also reads
back via `__HAL_UART_GET_IT_SOURCE` in the interrupt handler. -/
structure UartState where
  error : Nat
  readBuffer : CircularBuffer
  writeBuffer : CircularBuffer
  deviceId : Nat
  txPending : Bool
  txData : List Nat
  txLength : Nat
  txProgress : Nat
  itPE : Bool
  itERR : Bool
  itRXNE : Bool
  itTXE : Bool
  itTC : Bool
  deriving DecidableEq

/-- The hardware-pending interrupt conditions (`__HAL_UART_GET_IT`) seen by
one `InterruptHandler` invocation, and the byte in the receive data
register `RDR`. -/
structure HwInput where
  pe : Bool
  fe : Bool
  ne : Bool
  ore : Bool
  rxne : Bool
  txe : Bool
  tc : Bool
  rdr : Nat
  deriving DecidableEq

namespace UartDriverImpl

/-- State after `UartDriverImpl()` construction plus `Initialize(device_id)`:
error mask 0, fresh 511-byte ring buffers, no transmission pending; the
parity, generic-error and receive interrupts are enabled, the
transmission-complete interrupt is explicitly disabled, and the
transmit-empty interrupt starts out disabled (neither the constructor nor
`Initialize` enables it). -/
def Initialize (deviceId : Nat) : UartState :=
  { error := 0
    readBuffer := { capacity := kRxBufferSize, data := [] }
    writeBuffer := { capacity := kTxBufferSize, data := [] }
    deviceId := deviceId
    txPending := false
    txData := []
    txLength := 0
    txProgress := 0
    itPE := true
    itERR := true
    itRXNE := true
    itTXE := false
    itTC := false }

/-- `UartDriverImpl::EnsureTransmission` (uart_driver.cc lines 119-133). -/
def EnsureTransmission (s : UartState) : UartState × List Effect :=
  if !s.txPending then
    let r := s.writeBuffer.read kTxBlockSize
    let s1 := { s with writeBuffer := r.1, txData := r.2, txLength := r.2.length }
    if s1.txLength > 0 then
      ({ s1 with txProgress := 0, txPending := true, itTXE := true }, [])
    else
      (s1, [])
  else
    if s.writeBuffer.isFull then
      (s, [Effect.dmClearFlags s.deviceId kTransmittedBit])
    else
      (s, [])

/-- `UartDriverImpl::Read` (uart_driver.cc lines 76-83): read up to `count`
bytes out of the RX ring buffer; if the RX ring buffer is empty afterwards,
clear the received bit at the device manager. Returns (new state, bytes
read, emitted effects). -/
def Read (s : UartState) (count : Nat) : UartState × List Nat × List Effect :=
  let r := s.readBuffer.read count
  let s1 := { s with readBuffer := r.1 }
  if s1.readBuffer.isEmpty then
    (s1, r.2, [Effect.dmClearFlags s1.deviceId kReceivedBit])
  else
    (s1, r.2, [])

/-- `UartDriverImpl::Write` (uart_driver.cc lines 85-94): write up to
`count` bytes of `buffer` starting at `offset` into the TX ring buffer; if
any byte was accepted, call `EnsureTransmission`. Returns (new state,
bytes written, emitted effects). -/
def Write (s : UartState) (buffer : List Nat) (offset count : Nat) :
    UartState × Nat × List Effect :=
  let w := s.writeBuffer.write ((buffer.drop offset).take count)
  let s1 := { s with writeBuffer := w.1 }
  if w.2 > 0 then
    let e := EnsureTransmission s1
    (e.1, w.2, e.2)
  else
    (s1, w.2, [])

/-- `UartDriverImpl::GetError` (uart_driver.cc lines 96-99): clear the
error bit at the device manager and return the accumulated error mask. -/
def GetError (s : UartState) : UartState × Nat × List Effect :=
  (s, s.error, [Effect.dmClearFlags s.deviceId kErrorBit])

/-- One wake of the `UartDriverImpl::Task` loop (uart_driver.cc lines
101-117) with signal bits `sig` (delivered by `osSignalWait`): if the
transmitted bit is set, run `EnsureTransmission`; then unconditionally
forward `sig` via `DeviceManagerSetFlags`. -/
def Task (s : UartState) (sig : Nat) : UartState × List Effect :=
  let r := if sig &&& kTransmittedBit != 0 then EnsureTransmission s else (s, [])
  (r.1, r.2 ++ [Effect.dmSetFlags r.1.deviceId sig])

/-- Accumulator threaded through the sequential condition checks of
`UartDriverImpl::InterruptHandler`: the driver state, the local `flags`
word, and the effects emitted so far. -/
structure IrqAcc where
  st : UartState
  flags : Nat
  effs : List Effect
  deriving DecidableEq

/-- Common shape of the four error-condition branches of
`UartDriverImpl::InterruptHandler` (uart_driver.cc lines 138-168): when
the condition is pending and its source enabled, clear the hardware flag,
OR the HAL error code into the accumulated error mask and the error bit
into `flags`. -/
def errorBranch (cond : Bool) (code : Nat) (clearEff : Effect) (a : IrqAcc) : IrqAcc :=
  if cond then
    { st := { a.st with error := a.st.error ||| code }
      flags := a.flags ||| kErrorBit
      effs := a.effs ++ [clearEff] }
  else a

/-- Parity-error branch (uart_driver.cc lines 138-144). -/
def peStep (hw : HwInput) (a : IrqAcc) : IrqAcc :=
  errorBranch (hw.pe && a.st.itPE) HAL_UART_ERROR_PE Effect.clearPEFlag a

/-- Frame-error branch (uart_driver.cc lines 146-152); its source-enable
check is the shared `UART_IT_ERR` enable. -/
def feStep (hw : HwInput) (a : IrqAcc) : IrqAcc :=
  errorBranch (hw.fe && a.st.itERR) HAL_UART_ERROR_FE Effect.clearFEFlag a

/-- Noise-error branch (uart_driver.cc lines 154-160). -/
def neStep (hw : HwInput) (a : IrqAcc) : IrqAcc :=
  errorBranch (hw.ne && a.st.itERR) HAL_UART_ERROR_NE Effect.clearNEFlag a

/-- Overrun-error branch (uart_driver.cc lines 162-168). -/
def oreStep (hw : HwInput) (a : IrqAcc) : IrqAcc :=
  errorBranch (hw.ore && a.st.itERR) HAL_UART_ERROR_ORE Effect.clearOREFlag a

/-- Receive branch (uart_driver.cc lines 170-181): read one byte from
`RDR`, try to write it into the RX ring buffer (overflow silently
ignored), issue the receive-flush request, set the received bit. -/
def rxneStep (hw : HwInput) (a : IrqAcc) : IrqAcc :=
  if hw.rxne && a.st.itRXNE then
    let byte := hw.rdr % 256
    let w := a.st.readBuffer.write [byte]
    { st := { a.st with readBuffer := w.1 }
      flags := a.flags ||| kReceivedBit
      effs := a.effs ++ [Effect.rxFlushRequest] }
  else a

/-- Transmit-data-empty branch (uart_driver.cc lines 183-195): if the
staging block has unsent bytes, write the next one to `TDR` and advance
the progress cursor; otherwise disable the TXE interrupt source, clear the
pending flag and set the transmitted bit. -/
def txeStep (hw : HwInput) (a : IrqAcc) : IrqAcc :=
  if hw.txe && a.st.itTXE then
    if a.st.txProgress < a.st.txLength then
      { a with
          st := { a.st with txProgress := a.st.txProgress + 1 }
          effs := a.effs ++ [Effect.writeTDR (a.st.txData.getD a.st.txProgress 0)] }
    else
      { st := { a.st with itTXE := false, txPending := false }
        flags := a.flags ||| kTransmittedBit
        effs := a.effs }
  else a

/-- The five condition checks of `UartDriverImpl::InterruptHandler`
preceding the transmit-data-empty check, in source order. -/
def preTxe (hw : HwInput) (a : IrqAcc) : IrqAcc :=
  rxneStep hw (oreStep hw (neStep hw (feStep hw (peStep hw a))))

/-- The sequential condition checks of `UartDriverImpl::InterruptHandler`
up to (not including) the transmission-complete check: the resulting
driver state, the accumulated `flags` word that a final non-zero check
would signal, and the effects emitted so far. -/
def InterruptCore (s : UartState) (hw : HwInput) : IrqAcc :=
  txeStep hw (preTxe hw { st := s, flags := 0, effs := [] })

/-- `UartDriverImpl::InterruptHandler` (uart_driver.cc lines 135-208): the
condition checks, then the transmission-complete check (lines 197-201,
`UNREACHABLE()` modelled as a terminal `Effect.fatal`), then the
`osSignalSet` wake if `flags` is non-zero. -/
def InterruptHandler (s : UartState) (hw : HwInput) : UartState × List Effect :=
  let a := InterruptCore s hw
  if hw.tc && a.st.itTC then
    (a.st, a.effs ++ [Effect.fatal])
  else if a.flags != 0 then
    (a.st, a.effs ++ [Effect.signalSet a.flags])
  else
    (a.st, a.effs)

end UartDriverImpl

/-- States of the driver reachable from `Initialize` by any interleaving of
the driver's operations: facade calls (`Read`, `Write`, `GetError`),
consumer-task wakes, `EnsureTransmission` (as called from `Write` and from
the consumer task), and interrupt-handler invocations with arbitrary
hardware inputs. -/
inductive Reach : UartState → Prop where
  | init (deviceId : Nat) : Reach (UartDriverImpl.Initialize deviceId)
  | read (s : UartState) (count : Nat) : Reach s →
      Reach (UartDriverImpl.Read s count).1
  | write (s : UartState) (buffer : List Nat) (offset count : Nat) : Reach s →
      Reach (UartDriverImpl.Write s buffer offset count).1
  | getError (s : UartState) : Reach s → Reach (UartDriverImpl.GetError s).1
  | task (s : UartState) (sig : Nat) : Reach s →
      Reach (UartDriverImpl.Task s sig).1
  | ensure (s : UartState) : Reach s →
      Reach (UartDriverImpl.EnsureTransmission s).1
  | irq (s : UartState) (hw : HwInput) : Reach s →
      Reach (UartDriverImpl.InterruptHandler s hw).1

/-- The invariant claimed by the spec's §3 for the transmit machinery: the
staging progress cursor never exceeds the staging length, and the pending
flag is true iff the staging block has unsent bytes and the transmit-empty
interrupt source is enabled. -/
def specTxInvariant (s : UartState) : Prop :=
  s.txProgress ≤ s.txLength ∧
    (s.txPending = true ↔ (s.txProgress < s.txLength ∧ s.itTXE = true))

instance (s : UartState) : Decidable (specTxInvariant s) := by
  unfold specTxInvariant; infer_instance

/-- The invariant the code actually maintains: the pending flag tracks the
transmit-empty interrupt-source enable exactly, and while a transmission is
pending the progress cursor never exceeds the staging length. -/
def codeTxInvariant (s : UartState) : Prop :=
  s.txPending = s.itTXE ∧ (s.txPending = true → s.txProgress ≤ s.txLength)

instance (s : UartState) : Decidable (codeTxInvariant s) := by
  unfold codeTxInvariant; infer_instance

/-- The transmit machinery fields of two driver states agree. -/
def txSame (s t : UartState) : Prop :=
  t.txProgress = s.txProgress ∧ t.txLength = s.txLength ∧ t.txData = s.txData ∧
    t.txPending = s.txPending ∧ t.itTXE = s.itTXE

/-- Every bit set in `s.error` is still set in `t.error`. -/
def errorMono (s t : UartState) : Prop :=
  ∀ i, s.error.testBit i = true → t.error.testBit i = true

/-- Hardware input with only the transmit-data-empty condition pending. -/
def hwTXE : HwInput :=
  { pe := false, fe := false, ne := false, ore := false, rxne := false,
    txe := true, tc := false, rdr := 0 }

/-- Hardware input with only the receive condition pending and byte `b` in
the data register. -/
def hwRX (b : Nat) : HwInput :=
  { pe := false, fe := false, ne := false, ore := false, rxne := true,
    txe := false, tc := false, rdr := b }

/-- Hardware input with only the transmission-complete condition pending. -/
def hwTC : HwInput :=
  { pe := false, fe := false, ne := false, ore := false, rxne := false,
    txe := false, tc := true, rdr := 0 }

/-- A driver state with a transmission pending and room left in the TX
ring buffer. -/
def wPendingState : UartState :=
  { UartDriverImpl.Initialize 42 with
      txPending := true, itTXE := true, txData := [65], txLength := 1 }

/-- A driver state with a transmission pending and the TX ring buffer
full. -/
def wPendingFullState : UartState :=
  { wPendingState with writeBuffer := { capacity := 2, data := [7, 9] } }

/-- A driver state mid-transmission whose staging block is exhausted
(progress = length) with the pending flag still set. -/
def wSpentState : UartState :=
  { wPendingState with txProgress := 1 }

/-- A driver state with two bytes waiting in the TX ring buffer and no
transmission pending. -/
def wTxQueuedState : UartState :=
  { UartDriverImpl.Initialize 42 with
      writeBuffer := { capacity := kTxBufferSize, data := [10, 20] } }

/-- A driver state whose RX ring buffer is full. -/
def wRxFullState : UartState :=
  { UartDriverImpl.Initialize 42 with
      readBuffer := { capacity := 2, data := [1, 2] } }

/-- A driver state in which the transmission-complete interrupt source has
been (wrongly) enabled. -/
def wTcState : UartState :=
  { UartDriverImpl.Initialize 42 with itTC := true }

/-- A driver state with the overrun error code accumulated. -/
def wErrState : UartState :=
  { UartDriverImpl.Initialize 42 with error := 8 }

/-- Trace for the §3 transmit invariant: two bytes written (staged at
once by the `EnsureTransmission` inside `Write`). -/
def c5s1 : UartState :=
  (UartDriverImpl.Write (UartDriverImpl.Initialize 42) [65, 66] 0 2).1

/-- After one transmit-data-empty interrupt: first byte sent. -/
def c5s2 : UartState := (UartDriverImpl.InterruptHandler c5s1 hwTXE).1

/-- After a second transmit-data-empty interrupt: both bytes sent, but the
pending flag is still set and the TXE source still enabled. -/
def c5s3 : UartState := (UartDriverImpl.InterruptHandler c5s2 hwTXE).1

/-- After a third transmit-data-empty interrupt: the handler disables the
TXE source and clears the pending flag. -/
def c5s4 : UartState := (UartDriverImpl.InterruptHandler c5s3 hwTXE).1

/-- After the consumer-task wake for the transmitted signal: the
`EnsureTransmission` inside the task reads 0 bytes from the empty TX ring,
setting the staging length to 0 while the progress cursor is still 2. -/
def c5s5 : UartState := (UartDriverImpl.Task c5s4 kTransmittedBit).1

namespace UartDriverImpl

theorem EnsureTransmission_deviceId (s : UartState) :
    (EnsureTransmission s).1.deviceId = s.deviceId := by
  simp only [EnsureTransmission]
  split <;> split <;> rfl

theorem EnsureTransmission_readBuffer (s : UartState) :
    (EnsureTransmission s).1.readBuffer = s.readBuffer := by
  simp only [EnsureTransmission]
  split <;> split <;> rfl

theorem EnsureTransmission_error (s : UartState) :
    (EnsureTransmission s).1.error = s.error := by
  simp only [EnsureTransmission]
  split <;> split <;> rfl

theorem EnsureTransmission_itTC (s : UartState) :
    (EnsureTransmission s).1.itTC = s.itTC := by
  simp only [EnsureTransmission]
  split <;> split <;> rfl

theorem EnsureTransmission_codeTxInvariant (s : UartState)
    (h : codeTxInvariant s) : codeTxInvariant (EnsureTransmission s).1 := by
  obtain ⟨h1, h2⟩ := h
  unfold codeTxInvariant
  simp only [EnsureTransmission]
  split
  · next hnp =>
    split
    · exact ⟨rfl, fun _ => Nat.zero_le _⟩
    · refine ⟨h1, fun hcon => ?_⟩
      rw [show s.txPending = true from hcon] at hnp
      exact absurd hnp (by decide)
  · split <;> exact ⟨h1, h2⟩

@[simp] theorem errorBranch_readBuffer (c : Bool) (code : Nat) (e : Effect) (a : IrqAcc) :
    (errorBranch c code e a).st.readBuffer = a.st.readBuffer := by
  unfold errorBranch; split <;> rfl

@[simp] theorem errorBranch_writeBuffer (c : Bool) (code : Nat) (e : Effect) (a : IrqAcc) :
    (errorBranch c code e a).st.writeBuffer = a.st.writeBuffer := by
  unfold errorBranch; split <;> rfl

@[simp] theorem errorBranch_deviceId (c : Bool) (code : Nat) (e : Effect) (a : IrqAcc) :
    (errorBranch c code e a).st.deviceId = a.st.deviceId := by
  unfold errorBranch; split <;> rfl

@[simp] theorem errorBranch_txPending (c : Bool) (code : Nat) (e : Effect) (a : IrqAcc) :
    (errorBranch c code e a).st.txPending = a.st.txPending := by
  unfold errorBranch; split <;> rfl

@[simp] theorem errorBranch_txData (c : Bool) (code : Nat) (e : Effect) (a : IrqAcc) :
    (errorBranch c code e a).st.txData = a.st.txData := by
  unfold errorBranch; split <;> rfl

@[simp] theorem errorBranch_txLength (c : Bool) (code : Nat) (e : Effect) (a : IrqAcc) :
    (errorBranch c code e a).st.txLength = a.st.txLength := by
  unfold errorBranch; split <;> rfl

@[simp] theorem errorBranch_txProgress (c : Bool) (code : Nat) (e : Effect) (a : IrqAcc) :
    (errorBranch c code e a).st.txProgress = a.st.txProgress := by
  unfold errorBranch; split <;> rfl

@[simp] theorem errorBranch_itRXNE (c : Bool) (code : Nat) (e : Effect) (a : IrqAcc) :
    (errorBranch c code e a).st.itRXNE = a.st.itRXNE := by
  unfold errorBranch; split <;> rfl

@[simp] theorem errorBranch_itTXE (c : Bool) (code : Nat) (e : Effect) (a : IrqAcc) :
    (errorBranch c code e a).st.itTXE = a.st.itTXE := by
  unfold errorBranch; split <;> rfl

@[simp] theorem errorBranch_itTC (c : Bool) (code : Nat) (e : Effect) (a : IrqAcc) :
    (errorBranch c code e a).st.itTC = a.st.itTC := by
  unfold errorBranch; split <;> rfl

@[simp] theorem rxneStep_txPending (hw : HwInput) (a : IrqAcc) :
    (rxneStep hw a).st.txPending = a.st.txPending := by
  simp only [rxneStep]; split <;> rfl

@[simp] theorem rxneStep_txData (hw : HwInput) (a : IrqAcc) :
    (rxneStep hw a).st.txData = a.st.txData := by
  simp only [rxneStep]; split <;> rfl

@[simp] theorem rxneStep_txLength (hw : HwInput) (a : IrqAcc) :
    (rxneStep hw a).st.txLength = a.st.txLength := by
  simp only [rxneStep]; split <;> rfl

@[simp] theorem rxneStep_txProgress (hw : HwInput) (a : IrqAcc) :
    (rxneStep hw a).st.txProgress = a.st.txProgress := by
  simp only [rxneStep]; split <;> rfl

@[simp] theorem rxneStep_itTXE (hw : HwInput) (a : IrqAcc) :
    (rxneStep hw a).st.itTXE = a.st.itTXE := by
  simp only [rxneStep]; split <;> rfl

@[simp] theorem rxneStep_itTC (hw : HwInput) (a : IrqAcc) :
    (rxneStep hw a).st.itTC = a.st.itTC := by
  simp only [rxneStep]; split <;> rfl

@[simp] theorem rxneStep_deviceId (hw : HwInput) (a : IrqAcc) :
    (rxneStep hw a).st.deviceId = a.st.deviceId := by
  simp only [rxneStep]; split <;> rfl

@[simp] theorem rxneStep_error (hw : HwInput) (a : IrqAcc) :
    (rxneStep hw a).st.error = a.st.error := by
  simp only [rxneStep]; split <;> rfl

@[simp] theorem rxneStep_writeBuffer (hw : HwInput) (a : IrqAcc) :
    (rxneStep hw a).st.writeBuffer = a.st.writeBuffer := by
  simp only [rxneStep]; split <;> rfl

@[simp] theorem txeStep_readBuffer (hw : HwInput) (a : IrqAcc) :
    (txeStep hw a).st.readBuffer = a.st.readBuffer := by
  simp only [txeStep]; split
  · split <;> rfl
  · rfl

@[simp] theorem txeStep_writeBuffer (hw : HwInput) (a : IrqAcc) :
    (txeStep hw a).st.writeBuffer = a.st.writeBuffer := by
  simp only [txeStep]; split
  · split <;> rfl
  · rfl

@[simp] theorem txeStep_error (hw : HwInput) (a : IrqAcc) :
    (txeStep hw a).st.error = a.st.error := by
  simp only [txeStep]; split
  · split <;> rfl
  · rfl

@[simp] theorem txeStep_itTC (hw : HwInput) (a : IrqAcc) :
    (txeStep hw a).st.itTC = a.st.itTC := by
  simp only [txeStep]; split
  · split <;> rfl
  · rfl

@[simp] theorem txeStep_deviceId (hw : HwInput) (a : IrqAcc) :
    (txeStep hw a).st.deviceId = a.st.deviceId := by
  simp only [txeStep]; split
  · split <;> rfl
  · rfl

theorem preTxe_txSame (hw : HwInput) (a : IrqAcc) : txSame a.st (preTxe hw a).st := by
  unfold txSame preTxe peStep feStep neStep oreStep
  simp

theorem preTxe_itTC (hw : HwInput) (a : IrqAcc) :
    (preTxe hw a).st.itTC = a.st.itTC := by
  unfold preTxe peStep feStep neStep oreStep
  simp

theorem preTxe_deviceId (hw : HwInput) (a : IrqAcc) :
    (preTxe hw a).st.deviceId = a.st.deviceId := by
  unfold preTxe peStep feStep neStep oreStep
  simp

theorem testBit_or_mono {a : Nat} (b : Nat) {i : Nat} (h : a.testBit i = true) :
    (a ||| b).testBit i = true := by
  simp [Nat.testBit_or, h]

theorem errorBranch_flags_mono (c : Bool) (code : Nat) (e : Effect) (a : IrqAcc)
    (i : Nat) (h : a.flags.testBit i = true) :
    (errorBranch c code e a).flags.testBit i = true := by
  unfold errorBranch; split
  · exact testBit_or_mono _ h
  · exact h

theorem rxneStep_flags_mono (hw : HwInput) (a : IrqAcc)
    (i : Nat) (h : a.flags.testBit i = true) :
    (rxneStep hw a).flags.testBit i = true := by
  simp only [rxneStep]; split
  · exact testBit_or_mono _ h
  · exact h

theorem txeStep_flags_mono (hw : HwInput) (a : IrqAcc)
    (i : Nat) (h : a.flags.testBit i = true) :
    (txeStep hw a).flags.testBit i = true := by
  simp only [txeStep]; split
  · split
    · exact h
    · exact testBit_or_mono _ h
  · exact h

theorem errorBranch_error_mono (c : Bool) (code : Nat) (e : Effect) (a : IrqAcc)
    (i : Nat) (h : a.st.error.testBit i = true) :
    (errorBranch c code e a).st.error.testBit i = true := by
  unfold errorBranch; split
  · exact testBit_or_mono _ h
  · exact h

theorem errorBranch_effs_mem (c : Bool) (code : Nat) (e : Effect) (a : IrqAcc)
    (x : Effect) (h : x ∈ (errorBranch c code e a).effs) : x ∈ a.effs ∨ x = e := by
  unfold errorBranch at h; split at h
  · rcases List.mem_append.1 h with h | h
    · exact Or.inl h
    · exact Or.inr (List.mem_singleton.1 h)
  · exact Or.inl h

theorem rxneStep_effs_mem (hw : HwInput) (a : IrqAcc)
    (x : Effect) (h : x ∈ (rxneStep hw a).effs) :
    x ∈ a.effs ∨ x = Effect.rxFlushRequest := by
  simp only [rxneStep] at h; split at h
  · rcases List.mem_append.1 h with h | h
    · exact Or.inl h
    · exact Or.inr (List.mem_singleton.1 h)
  · exact Or.inl h

theorem txeStep_effs_mem (hw : HwInput) (a : IrqAcc)
    (x : Effect) (h : x ∈ (txeStep hw a).effs) :
    x ∈ a.effs ∨ ∃ b, x = Effect.writeTDR b := by
  simp only [txeStep] at h; split at h
  · split at h
    · rcases List.mem_append.1 h with h | h
      · exact Or.inl h
      · exact Or.inr ⟨_, List.mem_singleton.1 h⟩
    · exact Or.inl h
  · exact Or.inl h

theorem InterruptCore_no_fatal (s : UartState) (hw : HwInput) :
    Effect.fatal ∉ (InterruptCore s hw).effs := by
  intro h
  unfold InterruptCore preTxe peStep feStep neStep oreStep at h
  rcases txeStep_effs_mem _ _ _ h with h | ⟨b, hb⟩
  · rcases rxneStep_effs_mem _ _ _ h with h | h
    · rcases errorBranch_effs_mem _ _ _ _ _ h with h | h
      · rcases errorBranch_effs_mem _ _ _ _ _ h with h | h
        · rcases errorBranch_effs_mem _ _ _ _ _ h with h | h
          · rcases errorBranch_effs_mem _ _ _ _ _ h with h | h
            · exact absurd h (List.not_mem_nil _)
            · exact Effect.noConfusion h
          · exact Effect.noConfusion h
        · exact Effect.noConfusion h
      · exact Effect.noConfusion h
    · exact Effect.noConfusion h
  · exact Effect.noConfusion hb

theorem InterruptHandler_st_eq_core (s : UartState) (hw : HwInput) :
    (InterruptHandler s hw).1 = (InterruptCore s hw).st := by
  simp only [InterruptHandler]
  split
  · rfl
  · split <;> rfl

theorem InterruptHandler_effs_mono (s : UartState) (hw : HwInput) (x : Effect)
    (h : x ∈ (InterruptCore s hw).effs) : x ∈ (InterruptHandler s hw).2 := by
  simp only [InterruptHandler]
  split
  · exact List.mem_append_left _ h
  · split
    · exact List.mem_append_left _ h
    · exact h

theorem InterruptHandler_effs_signal (s : UartState) (hw : HwInput)
    (h1 : (hw.tc && (InterruptCore s hw).st.itTC) = false)
    (h2 : (InterruptCore s hw).flags ≠ 0) :
    (InterruptHandler s hw).2 =
      (InterruptCore s hw).effs ++
        [Effect.signalSet (InterruptCore s hw).flags] := by
  simp only [InterruptHandler, h1]
  simp [h2]

theorem testBit_or_mono_right (a : Nat) {b i : Nat} (h : b.testBit i = true) :
    (a ||| b).testBit i = true := by
  simp [Nat.testBit_or, h]

theorem txeStep_effs_mono (hw : HwInput) (a : IrqAcc) (x : Effect)
    (h : x ∈ a.effs) : x ∈ (txeStep hw a).effs := by
  simp only [txeStep]
  split
  · split
    · exact List.mem_append_left _ h
    · exact h
  · exact h

theorem preTxe_error_mono (hw : HwInput) (a : IrqAcc) (i : Nat)
    (h : a.st.error.testBit i = true) :
    (preTxe hw a).st.error.testBit i = true := by
  unfold preTxe peStep feStep neStep oreStep
  rw [rxneStep_error]
  exact errorBranch_error_mono _ _ _ _ _ (errorBranch_error_mono _ _ _ _ _
    (errorBranch_error_mono _ _ _ _ _ (errorBranch_error_mono _ _ _ _ _ h)))

theorem preTxe_itRXNE (hw : HwInput) (a : IrqAcc) :
    (preTxe hw a).st.itRXNE = a.st.itRXNE := by
  unfold preTxe peStep feStep neStep oreStep
  simp only [rxneStep]
  split <;> simp

theorem Read_st (s : UartState) (count : Nat) :
    (Read s count).1 = { s with readBuffer := (s.readBuffer.read count).1 } := by
  simp only [Read]
  split <;> rfl

theorem Task_st (s : UartState) (sig : Nat) :
    (Task s sig).1 = s ∨ (Task s sig).1 = (EnsureTransmission s).1 := by
  simp only [Task]
  split
  · exact Or.inr rfl
  · exact Or.inl rfl

theorem Write_st (s : UartState) (buffer : List Nat) (offset count : Nat) :
    (Write s buffer offset count).1 =
      { s with writeBuffer :=
          (s.writeBuffer.write ((buffer.drop offset).take count)).1 } ∨
    (Write s buffer offset count).1 =
      (EnsureTransmission { s with writeBuffer :=
          (s.writeBuffer.write ((buffer.drop offset).take count)).1 }).1 := by
  simp only [Write]
  split
  · exact Or.inr rfl
  · exact Or.inl rfl

theorem Write_codeTxInvariant (s : UartState) (buffer : List Nat)
    (offset count : Nat) (h : codeTxInvariant s) :
    codeTxInvariant (Write s buffer offset count).1 := by
  rcases Write_st s buffer offset count with heq | heq <;> rw [heq]
  · exact ⟨h.1, h.2⟩
  · exact EnsureTransmission_codeTxInvariant _ ⟨h.1, h.2⟩

theorem InterruptCore_codeTxInvariant (s : UartState) (hw : HwInput)
    (h : codeTxInvariant s) : codeTxInvariant (InterruptCore s hw).st := by
  obtain ⟨hprog, hlen, hdata, hpend, htxe⟩ :=
    preTxe_txSame hw { st := s, flags := 0, effs := [] }
  unfold InterruptCore
  set a := preTxe hw { st := s, flags := 0, effs := [] } with ha
  have hainv : codeTxInvariant a.st := by
    refine ⟨by rw [hpend, htxe]; exact h.1, fun hc => ?_⟩
    rw [hprog, hlen]
    rw [hpend] at hc
    exact h.2 hc
  simp only [txeStep]
  split
  · split
    · next hlt => exact ⟨hainv.1, fun _ => hlt⟩
    · exact ⟨rfl, fun hc => absurd hc Bool.false_ne_true⟩
  · exact hainv

theorem InterruptHandler_codeTxInvariant (s : UartState) (hw : HwInput)
    (h : codeTxInvariant s) : codeTxInvariant (InterruptHandler s hw).1 := by
  rw [InterruptHandler_st_eq_core]
  exact InterruptCore_codeTxInvariant s hw h

theorem InterruptCore_itTC (s : UartState) (hw : HwInput) :
    (InterruptCore s hw).st.itTC = s.itTC := by
  unfold InterruptCore
  rw [txeStep_itTC, preTxe_itTC]

theorem Reach_itTC (s : UartState) (h : Reach s) : s.itTC = false := by
  induction h with
  | init d => rfl
  | read s count h ih => rw [Read_st]; exact ih
  | write s buffer offset count h ih =>
      rcases Write_st s buffer offset count with heq | heq <;> rw [heq]
      · exact ih
      · rw [EnsureTransmission_itTC]; exact ih
  | getError s h ih => exact ih
  | task s sig h ih =>
      rcases Task_st s sig with heq | heq <;> rw [heq]
      · exact ih
      · rw [EnsureTransmission_itTC]; exact ih
  | ensure s h ih => rw [EnsureTransmission_itTC]; exact ih
  | irq s hw h ih => rw [InterruptHandler_st_eq_core, InterruptCore_itTC]; exact ih

theorem CircularBuffer.write_full (b : CircularBuffer) (bytes : List Nat)
    (h : b.isFull = true) : b.write bytes = (b, 0) := by
  have hlen : b.data.length = b.capacity := by
    simpa [CircularBuffer.isFull] using h
  simp [CircularBuffer.write, hlen]

end UartDriverImpl

/-- **C4**: `GetError` clears the error readiness bit (bit 3) at the
device-registration subsystem and returns the accumulated sticky error
mask while leaving the whole driver state (in particular the mask itself)
unchanged, so two consecutive calls return the same value. -/
theorem C4_GetError_clears_bit_keeps_mask (s : UartState) :
    UartDriverImpl.GetError s =
      (s, s.error, [Effect.dmClearFlags s.deviceId kErrorBit]) ∧
    (UartDriverImpl.GetError (UartDriverImpl.GetError s).1).2.1 =
      (UartDriverImpl.GetError s).2.1 :=
  ⟨rfl, rfl⟩

/-- **C9**: when a transmission is already pending and the TX ring buffer
is not full, `EnsureTransmission` changes nothing at all: the state
(staging block, pending flag, ring buffers, interrupt-source enables,
device identifier, error mask) is returned untouched and no effect is
emitted towards the hardware or the device-registration subsystem. -/
theorem C9_EnsureTransmission_noop (s : UartState)
    (hp : s.txPending = true) (hf : s.writeBuffer.isFull = false) :
    UartDriverImpl.EnsureTransmission s = (s, []) := by
  simp [UartDriverImpl.EnsureTransmission, hp, hf]

/-- Witness for C9 at a concrete state with a pending transmission and a
non-full TX ring buffer. -/
theorem C9_witness :
    wPendingState.txPending = true ∧
    wPendingState.writeBuffer.isFull = false ∧
    UartDriverImpl.EnsureTransmission wPendingState = (wPendingState, []) :=
  ⟨rfl, by decide, C9_EnsureTransmission_noop wPendingState rfl (by decide)⟩

/-- **C1**: when no transmission is pending, `EnsureTransmission` pulls up
to `kTxBlockSize` bytes out of the TX ring buffer into the staging block,
and exactly when that read yields more than zero bytes it resets the
progress cursor to 0, sets the pending flag and enables the transmit-empty
interrupt source; when a transmission is pending and the TX ring buffer is
full, it clears the transmitted readiness bit at the device-registration
subsystem. -/
theorem C1_EnsureTransmission_behavior (s : UartState) :
    (s.txPending = false →
      ((UartDriverImpl.EnsureTransmission s).1.txData =
          s.writeBuffer.data.take kTxBlockSize ∧
        (UartDriverImpl.EnsureTransmission s).1.txLength =
          (UartDriverImpl.EnsureTransmission s).1.txData.length ∧
        (UartDriverImpl.EnsureTransmission s).1.writeBuffer.data =
          s.writeBuffer.data.drop kTxBlockSize ∧
        (UartDriverImpl.EnsureTransmission s).1.txData.length ≤ kTxBlockSize ∧
        ((UartDriverImpl.EnsureTransmission s).1.txLength > 0 ↔
          ((UartDriverImpl.EnsureTransmission s).1.txProgress = 0 ∧
            (UartDriverImpl.EnsureTransmission s).1.txPending = true ∧
            (UartDriverImpl.EnsureTransmission s).1.itTXE = true)) ∧
        ((UartDriverImpl.EnsureTransmission s).1.txLength = 0 →
          ((UartDriverImpl.EnsureTransmission s).1.txPending = false ∧
            (UartDriverImpl.EnsureTransmission s).1.itTXE = s.itTXE)))) ∧
    (s.txPending = true → s.writeBuffer.isFull = true →
      UartDriverImpl.EnsureTransmission s =
        (s, [Effect.dmClearFlags s.deviceId kTransmittedBit])) := by
  constructor
  · intro hp
    simp only [UartDriverImpl.EnsureTransmission, CircularBuffer.read, hp,
      Bool.not_false, if_true]
    split
    · next hlen =>
      refine ⟨rfl, rfl, rfl, ?_, ?_, ?_⟩
      · exact List.length_take_le kTxBlockSize s.writeBuffer.data
      · exact ⟨fun _ => ⟨rfl, rfl, rfl⟩, fun _ => hlen⟩
      · intro h0
        have h0' : (List.take kTxBlockSize s.writeBuffer.data).length = 0 := h0
        exact absurd h0' (by omega)
    · next hlen =>
      refine ⟨rfl, rfl, rfl, ?_, ?_, fun _ => ⟨rfl, rfl⟩⟩
      · exact List.length_take_le kTxBlockSize s.writeBuffer.data
      · constructor
        · intro h; exact absurd h hlen
        · rintro ⟨-, hpend, -⟩
          exact absurd hpend Bool.false_ne_true
  · intro hp hf
    simp [UartDriverImpl.EnsureTransmission, hp, hf]

/-- Witness for C1: at a state with two queued TX bytes and no pending
transmission the bytes are staged, and at a pending state with a full TX
ring buffer the transmitted bit is cleared. -/
theorem C1_witness :
    wTxQueuedState.txPending = false ∧
    (UartDriverImpl.EnsureTransmission wTxQueuedState).1.txData =
      wTxQueuedState.writeBuffer.data.take kTxBlockSize ∧
    wPendingFullState.txPending = true ∧
    wPendingFullState.writeBuffer.isFull = true ∧
    UartDriverImpl.EnsureTransmission wPendingFullState =
      (wPendingFullState,
        [Effect.dmClearFlags wPendingFullState.deviceId kTransmittedBit]) :=
  ⟨rfl, ((C1_EnsureTransmission_behavior wTxQueuedState).1 rfl).1, rfl, by decide,
    (C1_EnsureTransmission_behavior wPendingFullState).2 rfl (by decide)⟩

/-- **C3 counterexample**: a `Read` on an already-empty RX ring buffer
(the freshly initialized driver) still issues the clear of the received
readiness bit at the device-registration subsystem, although no
non-empty-to-empty transition happened. -/
theorem C3_counterexample :
    (UartDriverImpl.Initialize 42).readBuffer.isEmpty = true ∧
    (UartDriverImpl.Read (UartDriverImpl.Initialize 42) 5).2.2 =
      [Effect.dmClearFlags 42 kReceivedBit] :=
  ⟨rfl, rfl⟩

/-- **C3 (amended)**: `Read(buffer, count)` returns the first
`min count available` bytes of the RX ring buffer (0 bytes if it was
empty, without blocking) and removes them from the buffer, and a clear of
the received readiness bit is issued — exactly once — when and only when
the RX ring buffer is empty after the read, which includes every read of
an already-empty buffer. -/
theorem C3_Read_behavior (s : UartState) (count : Nat) :
    (UartDriverImpl.Read s count).2.1 = s.readBuffer.data.take count ∧
    (UartDriverImpl.Read s count).1.readBuffer.data =
      s.readBuffer.data.drop count ∧
    (UartDriverImpl.Read s count).2.1.length =
      min count s.readBuffer.data.length ∧
    ((UartDriverImpl.Read s count).2.2 =
      if (s.readBuffer.data.drop count).isEmpty then
        [Effect.dmClearFlags s.deviceId kReceivedBit]
      else []) ∧
    ((UartDriverImpl.Read s count).2.2.count
        (Effect.dmClearFlags s.deviceId kReceivedBit) =
      if (UartDriverImpl.Read s count).1.readBuffer.isEmpty then 1 else 0) := by
  refine ⟨?_, ?_, ?_, ?_, ?_⟩ <;>
    simp only [UartDriverImpl.Read, CircularBuffer.read, CircularBuffer.isEmpty]
  · split <;> rfl
  · split <;> rfl
  · split <;> simp [List.length_take]
  · split <;> simp_all
  · split <;> simp_all

/-- **C6**: one wake of the consumer-task loop with non-empty signal set
`sig` invokes `EnsureTransmission` exactly when the transmitted bit is in
`sig`, and in every case forwards the full set `sig` to the
device-registration subsystem via `SetFlags` addressed by the driver's
device identifier. -/
theorem C6_Task_behavior (s : UartState) (sig : Nat) (hsig : sig ≠ 0) :
    (sig &&& kTransmittedBit ≠ 0 →
      UartDriverImpl.Task s sig =
        ((UartDriverImpl.EnsureTransmission s).1,
          (UartDriverImpl.EnsureTransmission s).2 ++
            [Effect.dmSetFlags s.deviceId sig])) ∧
    (sig &&& kTransmittedBit = 0 →
      UartDriverImpl.Task s sig = (s, [Effect.dmSetFlags s.deviceId sig])) ∧
    Effect.dmSetFlags s.deviceId sig ∈ (UartDriverImpl.Task s sig).2 := by
  have hdev := UartDriverImpl.EnsureTransmission_deviceId s
  by_cases h : sig &&& kTransmittedBit = 0
  · refine ⟨fun hc => absurd h hc, fun _ => ?_, ?_⟩ <;>
      simp [UartDriverImpl.Task, h]
  · have hb : (sig &&& kTransmittedBit != 0) = true := by
      simpa using h
    refine ⟨fun _ => ?_, fun hc => absurd hc h, ?_⟩ <;>
      simp [UartDriverImpl.Task, hb, hdev]

/-- Witness for C6 at the freshly initialized driver woken with signal set
3 (received and transmitted bits). -/
theorem C6_witness :
    (3 : Nat) ≠ 0 ∧ (3 : Nat) &&& kTransmittedBit ≠ 0 ∧
    UartDriverImpl.Task (UartDriverImpl.Initialize 42) 3 =
      ((UartDriverImpl.EnsureTransmission (UartDriverImpl.Initialize 42)).1,
        (UartDriverImpl.EnsureTransmission (UartDriverImpl.Initialize 42)).2 ++
          [Effect.dmSetFlags (UartDriverImpl.Initialize 42).deviceId 3]) :=
  ⟨by decide, by decide,
    (C6_Task_behavior (UartDriverImpl.Initialize 42) 3 (by decide)).1 (by decide)⟩

/-- **C2**: in an `InterruptHandler` invocation with the
transmit-data-empty condition pending and its source enabled, if the
staging block has unsent bytes the handler writes the byte at the progress
cursor to the hardware data register and advances the cursor by one;
otherwise it disables the transmit-empty interrupt source, clears the
pending flag and ORs the transmitted bit (bit 1) into the flags it will
signal. -/
theorem C2_InterruptHandler_txe (s : UartState) (hw : HwInput)
    (ht : hw.txe = true) (he : s.itTXE = true) :
    (s.txProgress < s.txLength →
      ((UartDriverImpl.InterruptHandler s hw).1.txProgress = s.txProgress + 1 ∧
        Effect.writeTDR (s.txData.getD s.txProgress 0) ∈
          (UartDriverImpl.InterruptHandler s hw).2)) ∧
    (¬ s.txProgress < s.txLength →
      ((UartDriverImpl.InterruptHandler s hw).1.itTXE = false ∧
        (UartDriverImpl.InterruptHandler s hw).1.txPending = false ∧
        (UartDriverImpl.InterruptCore s hw).flags.testBit 1 = true)) := by
  obtain ⟨hprog, hlen, hdata, hpend, htxe⟩ :=
    UartDriverImpl.preTxe_txSame hw { st := s, flags := 0, effs := [] }
  set a := UartDriverImpl.preTxe hw { st := s, flags := 0, effs := [] } with ha
  have hcond : (hw.txe && a.st.itTXE) = true := by rw [ht, htxe, he]; rfl
  have hcore : UartDriverImpl.InterruptCore s hw = UartDriverImpl.txeStep hw a := rfl
  constructor
  · intro hlt
    have hlt' : a.st.txProgress < a.st.txLength := by rw [hprog, hlen]; exact hlt
    have hstep : UartDriverImpl.txeStep hw a =
        { a with
            st := { a.st with txProgress := a.st.txProgress + 1 }
            effs := a.effs ++
              [Effect.writeTDR (a.st.txData.getD a.st.txProgress 0)] } := by
      simp only [UartDriverImpl.txeStep]
      rw [if_pos hcond, if_pos hlt']
    constructor
    · rw [UartDriverImpl.InterruptHandler_st_eq_core, hcore, hstep]
      show a.st.txProgress + 1 = s.txProgress + 1
      rw [hprog]
    · apply UartDriverImpl.InterruptHandler_effs_mono
      rw [hcore, hstep]
      show Effect.writeTDR (s.txData.getD s.txProgress 0) ∈
        a.effs ++ [Effect.writeTDR (a.st.txData.getD a.st.txProgress 0)]
      rw [hdata, hprog]
      exact List.mem_append_right _ (List.mem_singleton.2 rfl)
  · intro hge
    have hge' : ¬ a.st.txProgress < a.st.txLength := by rw [hprog, hlen]; exact hge
    have hstep : UartDriverImpl.txeStep hw a =
        { st := { a.st with itTXE := false, txPending := false }
          flags := a.flags ||| kTransmittedBit
          effs := a.effs } := by
      simp only [UartDriverImpl.txeStep]
      rw [if_pos hcond, if_neg hge']
    refine ⟨?_, ?_, ?_⟩
    · rw [UartDriverImpl.InterruptHandler_st_eq_core, hcore, hstep]
    · rw [UartDriverImpl.InterruptHandler_st_eq_core, hcore, hstep]
    · rw [hcore, hstep]
      exact UartDriverImpl.testBit_or_mono_right a.flags (by decide)

/-- Witness for C2: the driver mid-transmission (one unsent staged byte)
advances the cursor and writes the byte to the data register; the same
driver with the staging block exhausted disables the transmit-empty source
and clears the pending flag. -/
theorem C2_witness :
    hwTXE.txe = true ∧ wPendingState.itTXE = true ∧
    wPendingState.txProgress < wPendingState.txLength ∧
    (UartDriverImpl.InterruptHandler wPendingState hwTXE).1.txProgress =
      wPendingState.txProgress + 1 ∧
    ¬ wSpentState.txProgress < wSpentState.txLength ∧
    (UartDriverImpl.InterruptHandler wSpentState hwTXE).1.itTXE = false ∧
    (UartDriverImpl.InterruptHandler wSpentState hwTXE).1.txPending = false :=
  ⟨rfl, rfl, by decide,
    ((C2_InterruptHandler_txe wPendingState hwTXE rfl rfl).1 (by decide)).1,
    by decide,
    ((C2_InterruptHandler_txe wSpentState hwTXE rfl rfl).2 (by decide)).1,
    ((C2_InterruptHandler_txe wSpentState hwTXE rfl rfl).2 (by decide)).2.1⟩

/-- **C8**: in an `InterruptHandler` invocation with the receive condition
pending and enabled and the RX ring buffer full, the incoming byte is
dropped (the RX buffer is unchanged), yet the handler still issues the
receive-flush request and still ORs the received bit (bit 0) into the
flags it signals, so the consumer task is woken with "received" although
no byte was stored. -/
theorem C8_rx_overflow_still_signals (s : UartState) (hw : HwInput)
    (hr : hw.rxne = true) (he : s.itRXNE = true)
    (hfull : s.readBuffer.isFull = true) (htc : s.itTC = false) :
    (UartDriverImpl.InterruptHandler s hw).1.readBuffer = s.readBuffer ∧
    Effect.rxFlushRequest ∈ (UartDriverImpl.InterruptHandler s hw).2 ∧
    (UartDriverImpl.InterruptCore s hw).flags.testBit 0 = true ∧
    ∃ f, Effect.signalSet f ∈ (UartDriverImpl.InterruptHandler s hw).2 ∧
      f.testBit 0 = true := by
  set a1 := UartDriverImpl.oreStep hw (UartDriverImpl.neStep hw
    (UartDriverImpl.feStep hw (UartDriverImpl.peStep hw
      { st := s, flags := 0, effs := [] }))) with ha1
  have hrb : a1.st.readBuffer = s.readBuffer := by
    rw [ha1]
    simp [UartDriverImpl.oreStep, UartDriverImpl.neStep, UartDriverImpl.feStep,
      UartDriverImpl.peStep]
  have hrx : a1.st.itRXNE = s.itRXNE := by
    rw [ha1]
    simp [UartDriverImpl.oreStep, UartDriverImpl.neStep, UartDriverImpl.feStep,
      UartDriverImpl.peStep]
  have hcond : (hw.rxne && a1.st.itRXNE) = true := by rw [hr, hrx, he]; rfl
  have hwrt : a1.st.readBuffer.write [hw.rdr % 256] = (a1.st.readBuffer, 0) :=
    UartDriverImpl.CircularBuffer.write_full _ _ (by rw [hrb]; exact hfull)
  have hrxne : UartDriverImpl.rxneStep hw a1 =
      { st := a1.st
        flags := a1.flags ||| kReceivedBit
        effs := a1.effs ++ [Effect.rxFlushRequest] } := by
    simp only [UartDriverImpl.rxneStep]
    rw [if_pos hcond, hwrt]
  have hpre : UartDriverImpl.preTxe hw { st := s, flags := 0, effs := [] } =
      UartDriverImpl.rxneStep hw a1 := rfl
  have hcore : UartDriverImpl.InterruptCore s hw =
      UartDriverImpl.txeStep hw (UartDriverImpl.rxneStep hw a1) := rfl
  have hflag : (UartDriverImpl.InterruptCore s hw).flags.testBit 0 = true := by
    rw [hcore]
    apply UartDriverImpl.txeStep_flags_mono
    rw [hrxne]
    exact UartDriverImpl.testBit_or_mono_right a1.flags (by decide)
  refine ⟨?_, ?_, hflag, ?_⟩
  · rw [UartDriverImpl.InterruptHandler_st_eq_core, hcore,
      UartDriverImpl.txeStep_readBuffer, hrxne]
    exact hrb
  · apply UartDriverImpl.InterruptHandler_effs_mono
    rw [hcore]
    apply UartDriverImpl.txeStep_effs_mono
    rw [hrxne]
    exact List.mem_append_right _ (List.mem_singleton.2 rfl)
  · refine ⟨(UartDriverImpl.InterruptCore s hw).flags, ?_, hflag⟩
    have htc' : (hw.tc && (UartDriverImpl.InterruptCore s hw).st.itTC) = false := by
      rw [UartDriverImpl.InterruptCore_itTC, htc, Bool.and_false]
    have hne : (UartDriverImpl.InterruptCore s hw).flags ≠ 0 := by
      intro h0
      rw [h0] at hflag
      exact absurd hflag (by decide)
    rw [UartDriverImpl.InterruptHandler_effs_signal s hw htc' hne]
    exact List.mem_append_right _ (List.mem_singleton.2 rfl)

/-- Witness for C8 at a state whose RX ring buffer (capacity 2) is full
and a receive interrupt delivering byte 7. -/
theorem C8_witness :
    (hwRX 7).rxne = true ∧ wRxFullState.itRXNE = true ∧
    wRxFullState.readBuffer.isFull = true ∧ wRxFullState.itTC = false ∧
    (UartDriverImpl.InterruptHandler wRxFullState (hwRX 7)).1.readBuffer =
      wRxFullState.readBuffer ∧
    Effect.rxFlushRequest ∈
      (UartDriverImpl.InterruptHandler wRxFullState (hwRX 7)).2 :=
  ⟨rfl, rfl, by decide, rfl,
    (C8_rx_overflow_still_signals wRxFullState (hwRX 7) rfl rfl (by decide) rfl).1,
    (C8_rx_overflow_still_signals wRxFullState (hwRX 7) rfl rfl (by decide) rfl).2.1⟩

theorem UartDriverImpl.Read_error (s : UartState) (count : Nat) :
    (UartDriverImpl.Read s count).1.error = s.error := by
  rw [UartDriverImpl.Read_st]

/-- **C7**: the transmission-complete branch of `InterruptHandler` is a
fatal invariant violation whenever it is entered, and it is never entered
from any state reachable after `Initialize` (which disables that interrupt
source) because no driver operation ever enables it. -/
theorem C7_tc_fatal_unreachable :
    (∀ (s : UartState) (hw : HwInput), hw.tc = true → s.itTC = true →
      Effect.fatal ∈ (UartDriverImpl.InterruptHandler s hw).2) ∧
    (∀ s : UartState, Reach s → s.itTC = false) ∧
    (∀ (s : UartState) (hw : HwInput), Reach s →
      Effect.fatal ∉ (UartDriverImpl.InterruptHandler s hw).2) := by
  refine ⟨?_, UartDriverImpl.Reach_itTC, ?_⟩
  · intro s hw htc hit
    have hcond : (hw.tc && (UartDriverImpl.InterruptCore s hw).st.itTC) = true := by
      rw [htc, UartDriverImpl.InterruptCore_itTC, hit]; rfl
    have heq : UartDriverImpl.InterruptHandler s hw =
        ((UartDriverImpl.InterruptCore s hw).st,
          (UartDriverImpl.InterruptCore s hw).effs ++ [Effect.fatal]) := by
      simp only [UartDriverImpl.InterruptHandler]
      rw [if_pos hcond]
    rw [heq]
    exact List.mem_append_right _ (List.mem_singleton.2 rfl)
  · intro s hw hre hmem
    have hitc : s.itTC = false := UartDriverImpl.Reach_itTC s hre
    have hcond : (hw.tc && (UartDriverImpl.InterruptCore s hw).st.itTC) = false := by
      rw [UartDriverImpl.InterruptCore_itTC, hitc, Bool.and_false]
    have hnof := UartDriverImpl.InterruptCore_no_fatal s hw
    simp only [UartDriverImpl.InterruptHandler] at hmem
    rw [if_neg (by simp [hcond])] at hmem
    split at hmem
    · rcases List.mem_append.1 hmem with h | h
      · exact hnof h
      · exact Effect.noConfusion (List.mem_singleton.1 h)
    · exact hnof hmem

/-- Witness for C7: at a corrupted state with the transmission-complete
source enabled the branch is fatal; the freshly initialized driver has the
source disabled and an interrupt with the condition pending is harmless. -/
theorem C7_witness :
    hwTC.tc = true ∧ wTcState.itTC = true ∧
    Effect.fatal ∈ (UartDriverImpl.InterruptHandler wTcState hwTC).2 ∧
    (UartDriverImpl.Initialize 42).itTC = false ∧
    Effect.fatal ∉
      (UartDriverImpl.InterruptHandler (UartDriverImpl.Initialize 42) hwTC).2 :=
  ⟨rfl, rfl, C7_tc_fatal_unreachable.1 wTcState hwTC rfl rfl,
    C7_tc_fatal_unreachable.2.1 _ (Reach.init 42),
    C7_tc_fatal_unreachable.2.2 _ hwTC (Reach.init 42)⟩

/-- **C10**: the accumulated error mask is monotonically non-decreasing as
a bit set: every driver operation either leaves it unchanged or ORs
further error-code bits into it; no operation ever clears a bit. -/
theorem C10_error_monotone (s : UartState) :
    (∀ hw : HwInput, errorMono s (UartDriverImpl.InterruptHandler s hw).1) ∧
    (∀ count : Nat, errorMono s (UartDriverImpl.Read s count).1) ∧
    (∀ (buffer : List Nat) (offset count : Nat),
      errorMono s (UartDriverImpl.Write s buffer offset count).1) ∧
    errorMono s (UartDriverImpl.GetError s).1 ∧
    (∀ sig : Nat, errorMono s (UartDriverImpl.Task s sig).1) ∧
    errorMono s (UartDriverImpl.EnsureTransmission s).1 := by
  refine ⟨?_, ?_, ?_, ?_, ?_, ?_⟩
  · intro hw i h
    rw [UartDriverImpl.InterruptHandler_st_eq_core]
    show (UartDriverImpl.txeStep hw (UartDriverImpl.preTxe hw
      { st := s, flags := 0, effs := [] })).st.error.testBit i = true
    rw [UartDriverImpl.txeStep_error]
    exact UartDriverImpl.preTxe_error_mono hw _ i h
  · intro count i h
    rw [UartDriverImpl.Read_error]
    exact h
  · intro buffer offset count i h
    rcases UartDriverImpl.Write_st s buffer offset count with heq | heq <;> rw [heq]
    · exact h
    · rw [UartDriverImpl.EnsureTransmission_error]
      exact h
  · intro i h
    exact h
  · intro sig i h
    rcases UartDriverImpl.Task_st s sig with heq | heq <;> rw [heq]
    · exact h
    · rw [UartDriverImpl.EnsureTransmission_error]
      exact h
  · intro i h
    rw [UartDriverImpl.EnsureTransmission_error]
    exact h

/-- Witness for C10: a state with the overrun error bit accumulated keeps
that bit across a `GetError` call. -/
theorem C10_witness :
    wErrState.error.testBit 3 = true ∧
    (UartDriverImpl.GetError wErrState).1.error.testBit 3 = true :=
  ⟨by decide, (C10_error_monotone wErrState).2.2.2.1 3 (by decide)⟩

/-- **C5 counterexample**: the invariant claimed by the spec fails on
reachable states. After `Write([65, 66])` and two transmit-empty
interrupts (state `c5s3`) the pending flag is still true although the
staging block has no unsent bytes (progress = length = 2); after the
completing interrupt and the consumer-task wake (state `c5s5`) the
`EnsureTransmission` on the now-empty TX ring sets the staging length to 0
without resetting the progress cursor, so progress (2) exceeds length
(0). -/
theorem C5_counterexample :
    (Reach c5s3 ∧ ¬ specTxInvariant c5s3) ∧
    (Reach c5s5 ∧ ¬ specTxInvariant c5s5) := by
  have h1 : Reach c5s1 :=
    Reach.write (UartDriverImpl.Initialize 42) [65, 66] 0 2 (Reach.init 42)
  have h2 : Reach c5s2 := Reach.irq c5s1 hwTXE h1
  have h3 : Reach c5s3 := Reach.irq c5s2 hwTXE h2
  have h4 : Reach c5s4 := Reach.irq c5s3 hwTXE h3
  have h5 : Reach c5s5 := Reach.task c5s4 kTransmittedBit h4
  exact ⟨⟨h3, by decide⟩, ⟨h5, by decide⟩⟩

/-- **C5 (amended)**: in every state reachable by any interleaving of the
driver's operations after `Initialize`, the transmission-pending flag is
true iff the hardware transmit-empty interrupt source is enabled, and
while a transmission is pending the staging block's progress cursor never
exceeds its length. -/
theorem C5_tx_invariant (s : UartState) (h : Reach s) : codeTxInvariant s := by
  induction h with
  | init d => exact ⟨rfl, fun hc => absurd hc Bool.false_ne_true⟩
  | read s count h ih =>
      rw [UartDriverImpl.Read_st]
      exact ⟨ih.1, ih.2⟩
  | write s buffer offset count h ih =>
      exact UartDriverImpl.Write_codeTxInvariant s buffer offset count ih
  | getError s h ih => exact ih
  | task s sig h ih =>
      rcases UartDriverImpl.Task_st s sig with heq | heq <;> rw [heq]
      · exact ih
      · exact UartDriverImpl.EnsureTransmission_codeTxInvariant s ih
  | ensure s h ih => exact UartDriverImpl.EnsureTransmission_codeTxInvariant s ih
  | irq s hw h ih => exact UartDriverImpl.InterruptHandler_codeTxInvariant s hw ih

/-- Witness for C5 at the reachable mid-transmission state `c5s3`. -/
theorem C5_witness : codeTxInvariant c5s3 :=
  C5_tx_invariant c5s3 (Reach.irq c5s2 hwTXE (Reach.irq c5s1 hwTXE
    (Reach.write (UartDriverImpl.Initialize 42) [65, 66] 0 2 (Reach.init 42))))
